import Mathlib

/-
Verification of the html5ever serializer (src/html5ever/src/serialize/mod.rs).

The serializer is embedded shallowly: the sink is modelled as the string of
bytes written so far, the `warn!` diagnostics as a list of messages, and the
Rust panics (empty-stack underflow with `create_missing_parent = false`) as
`none` results of the fallible handlers. Strings are Lean `String`s (lists of
`Char`s), matching the char-by-char processing of the source.
-/

namespace HtmlSerialize

/-- Namespaces as used by the serializer: the three markup namespaces it
recognizes for tag names, the three attribute namespaces it prefixes, the
empty namespace, and everything else. -/
inductive Ns where
  | html
  | mathml
  | svg
  | xml
  | xmlns
  | xlink
  | empty
  | other (name : String)
deriving DecidableEq

/-- `QualName`: namespace plus local name (the external qualified-name type).
The Rust field `local` is a Lean keyword, hence `localName`. -/
structure QualName where
  ns : Ns
  localName : String
deriving DecidableEq

/-- `TraversalScope` from markup5ever::serialize. -/
inductive TraversalScope where
  | IncludeNode
  | ChildrenOnly (root : Option QualName)
deriving DecidableEq

/-- `SerializeOpts` (serialize/mod.rs lines 26-40). -/
structure SerializeOpts where
  scripting_enabled : Bool
  traversal_scope : TraversalScope
  create_missing_parent : Bool
deriving DecidableEq

/-- `impl Default for SerializeOpts` (lines 42-50). -/
def SerializeOpts.default : SerializeOpts :=
  { scripting_enabled := true
    traversal_scope := TraversalScope.ChildrenOnly none
    create_missing_parent := false }

/-- `ElemInfo` (lines 52-57). -/
structure ElemInfo where
  html_name : Option String
  ignore_children : Bool
  processed_first_child : Bool
deriving DecidableEq

/-- `#[derive(Default)]` for `ElemInfo`: all fields default (None / false). -/
def ElemInfo.default : ElemInfo :=
  { html_name := none, ignore_children := false, processed_first_child := false }

/-- `HtmlSerializer` (lines 59-63): the writer is modelled by the bytes
written so far (`out`), plus the `warn!` diagnostics emitted so far. -/
structure HtmlSerializer where
  out : String
  warns : List String
  opts : SerializeOpts
  stack : List ElemInfo
deriving DecidableEq

/-- `tagname` (lines 65-75): returns the local name unchanged; for a
namespace other than html/mathml/svg it also emits a `warn!` diagnostic. -/
def tagname (name : QualName) : String × List String :=
  match name.ns with
  | Ns.html | Ns.mathml | Ns.svg => (name.localName, [])
  | _ => (name.localName, ["node with weird namespace"])

/-- The `warn!` message of `parent` when the stack is empty and
`create_missing_parent` is set (line 97). -/
def stackWarnMsg : String := "ElemInfo stack empty, creating new parent"

/-- `HtmlSerializer::parent` (lines 94-104): on an empty stack, panic
(`none`) unless `create_missing_parent`, in which case push a default
entry with a diagnostic; then return the top entry. -/
def parent (s : HtmlSerializer) : Option (ElemInfo × HtmlSerializer) :=
  match s.stack with
  | [] =>
    if s.opts.create_missing_parent then
      some (ElemInfo.default,
        { s with stack := [ElemInfo.default], warns := s.warns ++ [stackWarnMsg] })
    else none
  | e :: _ => some (e, s)

/-- The mutation `self.parent().f = ...` through the same empty-stack
handling as `parent` (lines 94-104). -/
def parentModify (s : HtmlSerializer) (f : ElemInfo → ElemInfo) : Option HtmlSerializer :=
  match s.stack with
  | [] =>
    if s.opts.create_missing_parent then
      some { s with stack := [f ElemInfo.default], warns := s.warns ++ [stackWarnMsg] }
    else none
  | e :: rest => some { s with stack := f e :: rest }

/-- The per-character map of `write_escaped` (lines 106-118), in source
match-arm order: `&`, U+00A0, `"` (attribute mode only), `<` and `>`
(non-attribute mode only), default pass-through. -/
def escapeCharL (attr_mode : Bool) (c : Char) : List Char :=
  if c = '&' then "&amp;".data
  else if c = '\u00A0' then "&nbsp;".data
  else if c = '"' ∧ attr_mode = true then "&quot;".data
  else if c = '<' ∧ attr_mode = false then "&lt;".data
  else if c = '>' ∧ attr_mode = false then "&gt;".data
  else [c]

/-- The character loop of `write_escaped`: per-character outputs written to
the sink in input order. -/
def escapeList (attr_mode : Bool) : List Char → List Char
  | [] => []
  | c :: rest => escapeCharL attr_mode c ++ escapeList attr_mode rest

/-- `HtmlSerializer::write_escaped` (lines 106-118), as the string it
appends to the sink. -/
def write_escaped (text : String) (attr_mode : Bool) : String :=
  ⟨escapeList attr_mode text.data⟩

/-- The per-character map of `escape_text` (lines 147-165): unlike
`write_escaped` it escapes `"`, `<` and `>` unconditionally. -/
def escTextChar (c : Char) : List Char :=
  if c = '&' then "&amp;".data
  else if c = '\u00A0' then "&nbsp;".data
  else if c = '"' then "&quot;".data
  else if c = '<' then "&lt;".data
  else if c = '>' then "&gt;".data
  else [c]

/-- The character loop of `escape_text`. -/
def escTextList : List Char → List Char
  | [] => []
  | c :: rest => escTextChar c ++ escTextList rest

/-- `escape_text` (lines 147-165): identity when `should_escape` is false,
otherwise the unconditional character map applied to every character. -/
def escape_text (text : String) (should_escape : Bool) : String :=
  if should_escape = false then text
  else ⟨escTextList text.data⟩

/-- `ALLOWED_TAGS` (lines 121-145): the fixed sanitization allowlist. -/
def ALLOWED_TAGS : List String :=
  ["p", "br", "strong", "em", "del", "blockquote", "code", "pre",
   "h1", "h2", "h3", "h4", "h5", "h6", "a", "ul", "ol", "li", "hr"]

/-- The void-element set matched in `start_elem` (lines 217-238). -/
def VOID_TAGS : List String :=
  ["area", "base", "basefont", "bgsound", "br", "col", "embed", "frame",
   "hr", "img", "input", "keygen", "link", "meta", "param", "source",
   "track", "wbr"]

/-- `HtmlSerializer::new` (lines 77-92): the seed stack entry carries the
root name resolved through `tagname` when the scope is
`ChildrenOnly(Some n)`, and no name otherwise. -/
def HtmlSerializer.new (opts : SerializeOpts) : HtmlSerializer :=
  let resolved : Option String × List String :=
    match opts.traversal_scope with
    | TraversalScope.IncludeNode | TraversalScope.ChildrenOnly none => (none, [])
    | TraversalScope.ChildrenOnly (some n) => (some (tagname n).1, (tagname n).2)
  { out := ""
    warns := resolved.2
    opts := opts
    stack := [{ html_name := resolved.1, ignore_children := false,
                processed_first_child := false }] }

/-- The attribute-namespace prefix written by `start_elem` (lines 194-208),
together with the `warn!` diagnostic of the fallback arm. -/
def attrPrefixOf (ns : Ns) (localName : String) : String × List String :=
  match ns with
  | Ns.empty => ("", [])
  | Ns.xml => ("xml:", [])
  | Ns.xmlns => (if localName ≠ "xmlns" then ("xmlns:", []) else ("", []))
  | Ns.xlink => ("xlink:", [])
  | _ => ("unknown_namespace:", ["attr with weird namespace"])

/-- One iteration of the attribute loop of `start_elem` (lines 191-214):
space, namespace prefix, local name, `="` and `"` through `escape_text`,
and the value through `write_escaped` in attribute mode. -/
def serializeAttr (escape : Bool) (acc : String × List String)
    (attr : QualName × String) : String × List String :=
  let pre := attrPrefixOf attr.1.ns attr.1.localName
  (acc.1 ++ " " ++ pre.1 ++ attr.1.localName
     ++ escape_text "=\"" escape ++ write_escaped attr.2 true
     ++ escape_text "\"" escape,
   acc.2 ++ pre.2)

/-- The `html_name` computation of `start_elem` (lines 172-175): the local
name when the namespace is html, absent otherwise. -/
def htmlNameOf (name : QualName) : Option String :=
  match name.ns with
  | Ns.html => some name.localName
  | _ => none

/-- `Serializer::start_elem` (lines 168-249). `none` models the panic of
`parent` on an empty stack without `create_missing_parent`. -/
def start_elem (s : HtmlSerializer) (name : QualName)
    (attrs : List (QualName × String)) : Option HtmlSerializer :=
  let html_name : Option String := htmlNameOf name
  match parent s with
  | none => none
  | some (p, s1) =>
    if p.ignore_children then
      some { s1 with stack :=
        { html_name := html_name, ignore_children := true,
          processed_first_child := false } :: s1.stack }
    else
      let tg := tagname name
      let escape := !(ALLOWED_TAGS.contains tg.1)
      let out1 := s1.out ++ escape_text "<" escape ++ tg.1
      let looped := attrs.foldl (serializeAttr escape) (out1, [])
      let out2 := looped.1 ++ escape_text ">" escape
      let ignore_children : Bool :=
        if name.ns = Ns.html then VOID_TAGS.contains name.localName else false
      match parentModify { s1 with out := out2, warns := s1.warns ++ tg.2 ++ looped.2 }
          (fun e => { e with processed_first_child := true }) with
      | none => none
      | some s2 =>
        some { s2 with stack :=
          { html_name := html_name, ignore_children := ignore_children,
            processed_first_child := false } :: s2.stack }

/-- The `warn!` message of `end_elem` on an empty stack with
`create_missing_parent` set (line 255). -/
def missingWarnMsg : String := "missing ElemInfo, creating default."

/-- `Serializer::end_elem` (lines 251-270). Popping an empty stack is a
panic (`none`) unless `create_missing_parent`, in which case a default
`ElemInfo` is substituted with a diagnostic. -/
def end_elem (s : HtmlSerializer) (name : QualName) : Option HtmlSerializer :=
  let popped : Option (ElemInfo × HtmlSerializer) :=
    match s.stack with
    | info :: rest => some (info, { s with stack := rest })
    | [] =>
      if s.opts.create_missing_parent then
        some (ElemInfo.default, { s with warns := s.warns ++ [missingWarnMsg] })
      else none
  match popped with
  | none => none
  | some (info, s1) =>
    if info.ignore_children then some s1
    else
      let tg := tagname name
      let escape := !(ALLOWED_TAGS.contains tg.1)
      some { s1 with
        out := s1.out ++ escape_text "</" escape ++ tg.1 ++ escape_text ">" escape
        warns := s1.warns ++ tg.2 }

/-- The escaping decision of `write_text` (lines 273-285), factored out of
the handler: a function of the top entry's `html_name` and of
`scripting_enabled` only, with the source's match arms. -/
def wtEscape (html_name : Option String) (scripting_enabled : Bool) : Bool :=
  match html_name with
  | some "style" | some "script" | some "xmp" | some "iframe"
  | some "noembed" | some "noframes" | some "plaintext" => false
  | some "noscript" => !scripting_enabled
  | _ => true

/-- `Serializer::write_text` (lines 272-292). -/
def write_text (s : HtmlSerializer) (text : String) : Option HtmlSerializer :=
  match parent s with
  | none => none
  | some (p, s1) =>
    let escape := wtEscape p.html_name s1.opts.scripting_enabled
    if escape then some { s1 with out := s1.out ++ write_escaped text false }
    else some { s1 with out := s1.out ++ text }

/-- `Serializer::write_comment` (lines 294-298): no escaping, no stack
consultation. -/
def write_comment (s : HtmlSerializer) (text : String) : HtmlSerializer :=
  { s with out := s.out ++ "<!--" ++ text ++ "-->" }

/-- `Serializer::write_doctype` (lines 300-304). -/
def write_doctype (s : HtmlSerializer) (name : String) : HtmlSerializer :=
  { s with out := s.out ++ "<!DOCTYPE " ++ name ++ ">" }

/-- `Serializer::write_processing_instruction` (lines 306-312). -/
def write_processing_instruction (s : HtmlSerializer) (target data : String) :
    HtmlSerializer :=
  { s with out := s.out ++ "<?" ++ target ++ " " ++ data ++ ">" }

/-- One traversal event, as issued by the external traversal driver. -/
inductive Event where
  | startE (name : QualName) (attrs : List (QualName × String))
  | endE (name : QualName)
  | textE (text : String)
  | commentE (text : String)
  | doctypeE (name : String)
  | piE (target data : String)
deriving DecidableEq

/-- Dispatch one event to the corresponding handler. -/
def step (s : HtmlSerializer) : Event → Option HtmlSerializer
  | Event.startE n a => start_elem s n a
  | Event.endE n => end_elem s n
  | Event.textE t => write_text s t
  | Event.commentE t => some (write_comment s t)
  | Event.doctypeE n => some (write_doctype s n)
  | Event.piE t d => some (write_processing_instruction s t d)

/-- Run a sequence of events; `none` as soon as one handler panics. -/
def run (s : HtmlSerializer) : List Event → Option HtmlSerializer
  | [] => some s
  | e :: rest =>
    match step s e with
    | none => none
    | some s1 => run s1 rest

/-- Does the event operate on the element stack (start or end)? -/
def isElemEvent : Event → Bool
  | Event.startE _ _ => true
  | Event.endE _ => true
  | _ => false

/-- All events in the list are element events. -/
def elemOnly (evs : List Event) : Bool := evs.all isElemEvent

/-- Number of `start_elem` events. -/
def countStarts : List Event → Nat
  | [] => 0
  | Event.startE _ _ :: rest => countStarts rest + 1
  | _ :: rest => countStarts rest

/-- Number of `end_elem` events. -/
def countEnds : List Event → Nat
  | [] => 0
  | Event.endE _ :: rest => countEnds rest + 1
  | _ :: rest => countEnds rest

/-- With `k` elements of headroom on the stack, no prefix of the event list
closes more elements than have been opened above the headroom. -/
def noUnderflow : List Event → Nat → Bool
  | [], _ => true
  | Event.startE _ _ :: rest, k => noUnderflow rest (k + 1)
  | Event.endE _ :: rest, Nat.succ k => noUnderflow rest k
  | Event.endE _ :: _, 0 => false
  | _ :: rest, k => noUnderflow rest k

/-- The event sequence of spec scenario 2: a disallowed `div` with one
attribute `class="a"`, the text `hi`, and the matching close. -/
def c1Events : List Event :=
  [Event.startE ⟨Ns.html, "div"⟩ [(⟨Ns.empty, "class"⟩, "a")],
   Event.textE "hi",
   Event.endE ⟨Ns.html, "div"⟩]

/-- A serializer state whose top stack entry is suppressed: the state
reached from a fresh serializer after `start_elem` of the void element
`br`. -/
def suppressedState : HtmlSerializer :=
  { out := "<br>"
    warns := []
    opts := SerializeOpts.default
    stack := [{ html_name := some "br", ignore_children := true,
                processed_first_child := false },
              { html_name := none, ignore_children := false,
                processed_first_child := true }] }

/- ------------------------------------------------------------------ -/
/- Helper lemmas                                                       -/
/- ------------------------------------------------------------------ -/

lemma escapeList_eq_flatten (m : Bool) (l : List Char) :
    escapeList m l = (l.map (escapeCharL m)).flatten := by
  induction l with
  | nil => rfl
  | cons c tl ih => simp [escapeList, ih]

lemma start_elem_suppressed (s : HtmlSerializer) (h : ElemInfo) (t : List ElemInfo)
    (n : QualName) (a : List (QualName × String))
    (hs : s.stack = h :: t) (hi : h.ignore_children = true) :
    start_elem s n a = some { s with stack :=
      { html_name := htmlNameOf n, ignore_children := true,
        processed_first_child := false } :: s.stack } := by
  unfold start_elem parent
  rw [hs]
  simp [hi, hs]

lemma end_elem_suppressed (s : HtmlSerializer) (h : ElemInfo) (t : List ElemInfo)
    (n : QualName) (hs : s.stack = h :: t) (hi : h.ignore_children = true) :
    end_elem s n = some { s with stack := t } := by
  unfold end_elem
  rw [hs]
  simp [hi]

/- ------------------------------------------------------------------ -/
/- C1                                                                  -/
/- ------------------------------------------------------------------ -/

/-- Claim C1, counterexample: on the event sequence of spec scenario 2 the
serializer does not write `&lt;div class="a"&gt;hi&lt;/div&gt;` — the
punctuation escaper also rewrites the attribute-value quotes to `&quot;`,
so the bytes actually written differ from the claimed bytes. -/
theorem c1_attr_quote_counterexample :
    (run (HtmlSerializer.new SerializeOpts.default) c1Events).map HtmlSerializer.out =
      some "&lt;div class=&quot;a&quot;&gt;hi&lt;/div&gt;" ∧
    ("&lt;div class=&quot;a&quot;&gt;hi&lt;/div&gt;" : String) ≠
      "&lt;div class=\"a\"&gt;hi&lt;/div&gt;" := by
  exact ⟨by decide, by decide⟩

/-- Claim C1 as amended: for the event sequence start_elem of html `div`
(not in the allowlist) with attribute `class="a"`, write_text of `hi`,
end_elem of `div`, the serializer writes exactly
`&lt;div class=&quot;a&quot;&gt;hi&lt;/div&gt;` — tag delimiters
literalized, the attribute value escaped normally, the equals sign plain,
and the surrounding quotes escaped to `&quot;` because `escape_text`
escapes `"` unconditionally. -/
theorem c1_sanitized_div_output :
    (run (HtmlSerializer.new SerializeOpts.default) c1Events).map HtmlSerializer.out =
      some "&lt;div class=&quot;a&quot;&gt;hi&lt;/div&gt;" := by
  decide

/- ------------------------------------------------------------------ -/
/- C5                                                                  -/
/- ------------------------------------------------------------------ -/

/-- Claim C5: in both modes `write_escaped` maps each character
independently and concatenates the outputs in input order; the per-character
map sends `&` to `&amp;`, U+00A0 to `&nbsp;`, `"` to `&quot;` only in
attribute mode, `<` and `>` to `&lt;`/`&gt;` only outside attribute mode,
and every other character to itself. -/
theorem c5_write_escaped_charwise (text : String) (attr_mode : Bool) :
    (write_escaped text attr_mode).data = (text.data.map (escapeCharL attr_mode)).flatten ∧
    escapeCharL attr_mode '&' = "&amp;".data ∧
    escapeCharL attr_mode '\u00A0' = "&nbsp;".data ∧
    escapeCharL true '"' = "&quot;".data ∧
    escapeCharL false '"' = ['"'] ∧
    escapeCharL false '<' = "&lt;".data ∧
    escapeCharL true '<' = ['<'] ∧
    escapeCharL false '>' = "&gt;".data ∧
    escapeCharL true '>' = ['>'] ∧
    (∀ c : Char, c ∉ (['&', '\u00A0', '"', '<', '>'] : List Char) →
      escapeCharL attr_mode c = [c]) := by
  refine ⟨escapeList_eq_flatten attr_mode text.data,
    rfl, rfl, rfl, rfl, rfl, rfl, rfl, rfl, ?_⟩
  intro c hc
  simp only [List.mem_cons, List.not_mem_nil, or_false, not_or] at hc
  obtain ⟨h1, h2, h3, h4, h5⟩ := hc
  simp [escapeCharL, h1, h2, h3, h4, h5]

/-- Claim C5 witness at a concrete input. -/
theorem c5_write_escaped_charwise_witness :
    (write_escaped "a<b" true).data = (("a<b").data.map (escapeCharL true)).flatten ∧
    escapeCharL true 'x' = ['x'] :=
  ⟨(c5_write_escaped_charwise "a<b" true).1,
   (c5_write_escaped_charwise "a<b" true).2.2.2.2.2.2.2.2.2 'x' (by decide)⟩

/- ------------------------------------------------------------------ -/
/- C6                                                                  -/
/- ------------------------------------------------------------------ -/

/-- Claim C6: the attribute prefix emitted by `start_elem` is determined by
the attribute's namespace alone, except that the xmlns case also inspects
the local name; no namespace gives `""`, xml gives `"xml:"`, xmlns with
local name other than `"xmlns"` gives `"xmlns:"`, xmlns with local name
`"xmlns"` gives `""`, xlink gives `"xlink:"`, and any other namespace
gives `"unknown_namespace:"` together with a non-fatal diagnostic. -/
theorem c6_attr_prefix_table (l : String) :
    attrPrefixOf Ns.empty l = ("", []) ∧
    attrPrefixOf Ns.xml l = ("xml:", []) ∧
    (l ≠ "xmlns" → attrPrefixOf Ns.xmlns l = ("xmlns:", [])) ∧
    attrPrefixOf Ns.xmlns "xmlns" = ("", []) ∧
    attrPrefixOf Ns.xlink l = ("xlink:", []) ∧
    (∀ ns : Ns, ns ≠ Ns.empty → ns ≠ Ns.xml → ns ≠ Ns.xmlns → ns ≠ Ns.xlink →
      attrPrefixOf ns l = ("unknown_namespace:", ["attr with weird namespace"])) := by
  refine ⟨rfl, rfl, ?_, by simp [attrPrefixOf], rfl, ?_⟩
  · intro h
    simp [attrPrefixOf, h]
  · intro ns h1 h2 h3 h4
    cases ns <;> simp_all [attrPrefixOf]

/-- Claim C6 witness at concrete inputs. -/
theorem c6_attr_prefix_table_witness :
    attrPrefixOf Ns.xmlns "href" = ("xmlns:", []) ∧
    attrPrefixOf Ns.html "href" = ("unknown_namespace:", ["attr with weird namespace"]) :=
  ⟨(c6_attr_prefix_table "href").2.2.1 (by decide),
   (c6_attr_prefix_table "href").2.2.2.2.2 Ns.html
     (by decide) (by decide) (by decide) (by decide)⟩

/- ------------------------------------------------------------------ -/
/- C2                                                                  -/
/- ------------------------------------------------------------------ -/

/-- Claim C2, counterexample: after `start_elem` of the void element `br`
the top stack entry is suppressed, yet `write_text` of `"x"` appends the
byte `x` to the sink — output does escape a suppressed region through
`write_text`, which never consults the suppression flag. -/
theorem c2_write_text_suppressed_counterexample :
    (run (HtmlSerializer.new SerializeOpts.default)
        [Event.startE ⟨Ns.html, "br"⟩ []]).map
      (fun s => (s.stack.head?.map ElemInfo.ignore_children, s.out,
                 (write_text s "x").map HtmlSerializer.out)) =
      some (some true, "<br>", some "<br>x") ∧
    ("<br>x" : String) ≠ "<br>" := by
  exact ⟨by decide, by decide⟩

/-- Claim C2 as amended: while the top stack entry is suppressed, the
handlers `start_elem` and `end_elem` write no bytes; the remaining
handlers (`write_text`, `write_comment`, `write_doctype`,
`write_processing_instruction`) do not consult the suppression flag and
write their output regardless. -/
theorem c2_suppressed_start_end_emit_nothing (s : HtmlSerializer) (e : ElemInfo)
    (t : List ElemInfo) (n m : QualName) (a : List (QualName × String))
    (hs : s.stack = e :: t) (hi : e.ignore_children = true) :
    (start_elem s n a).map HtmlSerializer.out = some s.out ∧
    (end_elem s m).map HtmlSerializer.out = some s.out := by
  rw [start_elem_suppressed s e t n a hs hi, end_elem_suppressed s e t m hs hi]
  exact ⟨rfl, rfl⟩

/-- Claim C2 witness: the amended no-output guarantee at a concrete
suppressed state. -/
theorem c2_suppressed_start_end_emit_nothing_witness :
    (start_elem suppressedState ⟨Ns.html, "p"⟩ []).map HtmlSerializer.out =
      some suppressedState.out ∧
    (end_elem suppressedState ⟨Ns.html, "br"⟩).map HtmlSerializer.out =
      some suppressedState.out :=
  c2_suppressed_start_end_emit_nothing suppressedState
    { html_name := some "br", ignore_children := true, processed_first_child := false }
    [{ html_name := none, ignore_children := false, processed_first_child := true }]
    ⟨Ns.html, "p"⟩ ⟨Ns.html, "br"⟩ [] rfl rfl

/- ------------------------------------------------------------------ -/
/- C4                                                                  -/
/- ------------------------------------------------------------------ -/

/-- Claim C4: the escaping decision of `write_text` is a function
(`wtEscape`) of only the top entry's resolved html local name and the
`scripting_enabled` option; the seven raw-text names are written raw,
`noscript` is escaped iff scripting is disabled, and every other case —
including no enclosing html element — is escaped in text mode. -/
theorem c4_write_text_escape_decision (s : HtmlSerializer) (e : ElemInfo)
    (rest : List ElemInfo) (t : String) (hs : s.stack = e :: rest) :
    write_text s t = some { s with out := s.out ++
        (if wtEscape e.html_name s.opts.scripting_enabled = true
         then write_escaped t false else t) } ∧
    (∀ nm : String, nm ∈ (["style", "script", "xmp", "iframe", "noembed",
        "noframes", "plaintext"] : List String) →
      wtEscape (some nm) s.opts.scripting_enabled = false) ∧
    wtEscape (some "noscript") s.opts.scripting_enabled =
      !s.opts.scripting_enabled ∧
    (∀ nm : String, nm ∉ (["style", "script", "xmp", "iframe", "noembed",
        "noframes", "plaintext"] : List String) → nm ≠ "noscript" →
      wtEscape (some nm) s.opts.scripting_enabled = true) ∧
    wtEscape none s.opts.scripting_enabled = true := by
  refine ⟨?_, ?_, rfl, ?_, rfl⟩
  · unfold write_text parent
    rw [hs]
    by_cases hE : wtEscape e.html_name s.opts.scripting_enabled = true
    · simp [hE, hs]
    · simp [hE, hs]
  · intro nm hnm
    fin_cases hnm <;> rfl
  · intro nm h1 h2
    unfold wtEscape
    split <;> simp_all

/-- A concrete state for the C4 witness: top entry is a raw-text `script`
element. -/
def c4State : HtmlSerializer :=
  { out := "<script>"
    warns := []
    opts := SerializeOpts.default
    stack := [{ html_name := some "script", ignore_children := false,
                processed_first_child := false }] }

/-- Claim C4 witness at a concrete state and text. -/
theorem c4_write_text_escape_decision_witness :
    write_text c4State "a<b" = some { c4State with out := c4State.out ++
        (if wtEscape (some "script") c4State.opts.scripting_enabled = true
         then write_escaped "a<b" false else "a<b") } ∧
    wtEscape (some "style") c4State.opts.scripting_enabled = false ∧
    wtEscape (some "div") c4State.opts.scripting_enabled = true :=
  ⟨(c4_write_text_escape_decision c4State
      { html_name := some "script", ignore_children := false,
        processed_first_child := false } [] "a<b" rfl).1,
   (c4_write_text_escape_decision c4State
      { html_name := some "script", ignore_children := false,
        processed_first_child := false } [] "a<b" rfl).2.1 "style" (by decide),
   (c4_write_text_escape_decision c4State
      { html_name := some "script", ignore_children := false,
        processed_first_child := false } [] "a<b" rfl).2.2.2.1 "div"
     (by decide) (by decide)⟩

/- ------------------------------------------------------------------ -/
/- C3                                                                  -/
/- ------------------------------------------------------------------ -/

/-- Core induction for suppression inheritance: starting above a suppressed
entry `e`, any element-only event sequence that never closes more elements
than it has opened runs without output, keeps the portion of the stack at
and below `e` intact, and leaves only suppressed entries above it. -/
lemma run_suppressed_aux :
    ∀ (evs : List Event) (extra : List ElemInfo) (out : String)
      (warns : List String) (opts : SerializeOpts) (e : ElemInfo)
      (rest : List ElemInfo),
      e.ignore_children = true →
      (∀ x ∈ extra, x.ignore_children = true) →
      elemOnly evs = true →
      noUnderflow evs extra.length = true →
      ∃ extra2 : List ElemInfo,
        run ⟨out, warns, opts, extra ++ e :: rest⟩ evs =
          some ⟨out, warns, opts, extra2 ++ e :: rest⟩ ∧
        (∀ x ∈ extra2, x.ignore_children = true) ∧
        extra2.length + countEnds evs = extra.length + countStarts evs := by
  intro evs
  induction evs with
  | nil =>
    intro extra out warns opts e rest he hextra _ _
    exact ⟨extra, rfl, hextra, by simp [countStarts, countEnds]⟩
  | cons ev tl ih =>
    intro extra out warns opts e rest he hextra h1 h2
    cases ev with
    | startE n a =>
      have hElem : elemOnly tl = true := by
        simp only [elemOnly, List.all_cons, Bool.and_eq_true] at h1
        exact h1.2
      have hNu : noUnderflow tl (extra.length + 1) = true := by
        simpa [noUnderflow] using h2
      have hstep :
          start_elem ⟨out, warns, opts, extra ++ e :: rest⟩ n a =
            some ⟨out, warns, opts,
              (⟨htmlNameOf n, true, false⟩ : ElemInfo) :: (extra ++ e :: rest)⟩ := by
        cases extra with
        | nil =>
          exact start_elem_suppressed _ e rest n a rfl he
        | cons x xs =>
          exact start_elem_suppressed _ x (xs ++ e :: rest) n a rfl
            (hextra x (List.mem_cons_self x xs))
      have hsup2 : ∀ y ∈ (⟨htmlNameOf n, true, false⟩ : ElemInfo) :: extra,
          y.ignore_children = true := by
        intro y hy
        rcases List.mem_cons.mp hy with h | h
        · rw [h]
        · exact hextra y h
      obtain ⟨extra2, hrun, hsup, hlen⟩ :=
        ih ((⟨htmlNameOf n, true, false⟩ : ElemInfo) :: extra) out warns opts e
          rest he hsup2 hElem (by simpa using hNu)
      refine ⟨extra2, ?_, hsup, ?_⟩
      · simp only [run, step, hstep]
        simpa using hrun
      · simp only [countStarts, countEnds, List.length_cons] at hlen ⊢
        omega
    | endE n =>
      have hElem : elemOnly tl = true := by
        simp only [elemOnly, List.all_cons, Bool.and_eq_true] at h1
        exact h1.2
      cases extra with
      | nil =>
        exfalso
        simp [noUnderflow] at h2
      | cons x xs =>
        have hNu : noUnderflow tl xs.length = true := by
          simpa [noUnderflow] using h2
        have hstep :
            end_elem ⟨out, warns, opts, (x :: xs) ++ e :: rest⟩ n =
              some ⟨out, warns, opts, xs ++ e :: rest⟩ :=
          end_elem_suppressed _ x (xs ++ e :: rest) n rfl
            (hextra x (List.mem_cons_self x xs))
        obtain ⟨extra2, hrun, hsup, hlen⟩ :=
          ih xs out warns opts e rest he
            (fun y hy => hextra y (List.mem_cons_of_mem x hy)) hElem hNu
        refine ⟨extra2, ?_, hsup, ?_⟩
        · simp only [run, step, hstep]
          exact hrun
        · simp only [countStarts, countEnds, List.length_cons] at hlen ⊢
          omega
    | textE t => simp [elemOnly, isElemEvent] at h1
    | commentE t => simp [elemOnly, isElemEvent] at h1
    | doctypeE t => simp [elemOnly, isElemEvent] at h1
    | piE t d => simp [elemOnly, isElemEvent] at h1

/-- Claim C3: every element opened while the top entry is suppressed is
pushed suppressed and produces no output, at every nesting depth: an
element-only, never-underflowing event sequence run from a suppressed top
leaves the output unchanged, pushes only suppressed entries, and preserves
the original stack below them; a single suppressed `start_elem` pushes
exactly one entry and a single suppressed `end_elem` pops exactly one. -/
theorem c3_suppression_inheritance (evs : List Event) (s : HtmlSerializer)
    (e : ElemInfo) (rest : List ElemInfo) (n m : QualName)
    (a : List (QualName × String))
    (hs : s.stack = e :: rest) (he : e.ignore_children = true)
    (h1 : elemOnly evs = true) (h2 : noUnderflow evs 0 = true) :
    (run s evs).map (fun t2 => (t2.out, t2.warns,
        t2.stack.length,
        (t2.stack.take (countStarts evs - countEnds evs)).all
          (fun x => x.ignore_children),
        t2.stack.drop (countStarts evs - countEnds evs))) =
      some (s.out, s.warns, s.stack.length + (countStarts evs - countEnds evs),
        true, s.stack) ∧
    (start_elem s n a).map (fun t2 => (t2.out, t2.stack.length)) =
      some (s.out, s.stack.length + 1) ∧
    (end_elem s m).map (fun t2 => (t2.out, t2.stack.length)) =
      some (s.out, rest.length) := by
  refine ⟨?_, ?_, ?_⟩
  · obtain ⟨so, sw, sopt, sst⟩ := s
    have hs2 : sst = e :: rest := hs
    subst hs2
    obtain ⟨extra2, hrun, hsup, hlen⟩ :=
      run_suppressed_aux evs [] so sw sopt e rest he
        (by intro x hx; simp at hx) h1 (by simpa using h2)
    simp only [List.nil_append] at hrun
    simp only at hrun ⊢
    rw [hrun]
    have hx : countStarts evs - countEnds evs = extra2.length := by
      simp only [List.length_nil] at hlen
      omega
    simp [hx, List.take_left, List.drop_left, List.length_append,
      List.all_eq_true, hsup]
    exact ⟨by omega, hsup⟩
  · rw [start_elem_suppressed s e rest n a hs he]
    simp
  · rw [end_elem_suppressed s e rest m hs he]
    simp [hs]

/-- The nested element events used by the C3 witness: two levels of
elements opened and closed below the suppressed `br`. -/
def c3Events : List Event :=
  [Event.startE ⟨Ns.html, "div"⟩ [], Event.startE ⟨Ns.html, "span"⟩ [],
   Event.endE ⟨Ns.html, "span"⟩, Event.endE ⟨Ns.html, "div"⟩]

/-- Claim C3 witness: the suppressed-subtree run at a concrete state and
event sequence. -/
theorem c3_suppression_inheritance_witness :
    (run suppressedState c3Events).map (fun t2 => (t2.out, t2.warns,
        t2.stack.length,
        (t2.stack.take (countStarts c3Events - countEnds c3Events)).all
          (fun x => x.ignore_children),
        t2.stack.drop (countStarts c3Events - countEnds c3Events))) =
      some (suppressedState.out, suppressedState.warns,
        suppressedState.stack.length +
          (countStarts c3Events - countEnds c3Events),
        true, suppressedState.stack) ∧
    (start_elem suppressedState ⟨Ns.html, "em"⟩ []).map
        (fun t2 => (t2.out, t2.stack.length)) =
      some (suppressedState.out, suppressedState.stack.length + 1) ∧
    (end_elem suppressedState ⟨Ns.html, "br"⟩).map
        (fun t2 => (t2.out, t2.stack.length)) =
      some (suppressedState.out,
        ([{ html_name := none, ignore_children := false,
            processed_first_child := true }] : List ElemInfo).length) :=
  c3_suppression_inheritance c3Events suppressedState
    ⟨some "br", true, false⟩
    [⟨none, false, true⟩]
    ⟨Ns.html, "em"⟩ ⟨Ns.html, "br"⟩ [] rfl rfl (by decide) (by decide)

/- ------------------------------------------------------------------ -/
/- C7                                                                  -/
/- ------------------------------------------------------------------ -/

/-- Claim C7: `end_elem` on an empty Context Stack fails (panics) iff
`create_missing_parent` is false; with `create_missing_parent` true the
call does not abort, records the diagnostic, substitutes a synthetic
default context, and leaves the serializer in a normal state (empty stack,
options unchanged) from which subsequent events are processed as usual. -/
theorem c7_end_elem_empty_stack (s : HtmlSerializer) (name : QualName)
    (hs : s.stack = []) :
    (end_elem s name = none ↔ s.opts.create_missing_parent = false) ∧
    (s.opts.create_missing_parent = true →
      (end_elem s name).map (fun t => (t.warns, t.opts, t.stack)) =
        some (s.warns ++ [missingWarnMsg] ++ (tagname name).2, s.opts,
          ([] : List ElemInfo))) := by
  unfold end_elem
  rw [hs]
  cases hc : s.opts.create_missing_parent with
  | false => simp [hc]
  | true => simp [hc, ElemInfo.default, hs]

/-- A concrete empty-stack serializer with `create_missing_parent` set,
used by the C7, C9 and C10 witnesses. -/
def emptyLenient : HtmlSerializer :=
  { out := ""
    warns := []
    opts := { scripting_enabled := true
              traversal_scope := TraversalScope.ChildrenOnly none
              create_missing_parent := true }
    stack := [] }

/-- A concrete empty-stack serializer with `create_missing_parent` unset,
used by the C7 and C9 witnesses. -/
def emptyStrict : HtmlSerializer :=
  { out := ""
    warns := []
    opts := SerializeOpts.default
    stack := [] }

/-- Claim C7 witness: both configurations at a concrete state and name. -/
theorem c7_end_elem_empty_stack_witness :
    (end_elem emptyStrict ⟨Ns.html, "div"⟩ = none ↔
      emptyStrict.opts.create_missing_parent = false) ∧
    (end_elem emptyLenient ⟨Ns.html, "div"⟩).map
        (fun t => (t.warns, t.opts, t.stack)) =
      some (emptyLenient.warns ++ [missingWarnMsg] ++
          (tagname ⟨Ns.html, "div"⟩).2, emptyLenient.opts,
        ([] : List ElemInfo)) :=
  ⟨(c7_end_elem_empty_stack emptyStrict ⟨Ns.html, "div"⟩ rfl).1,
   (c7_end_elem_empty_stack emptyLenient ⟨Ns.html, "div"⟩ rfl).2 rfl⟩

/- ------------------------------------------------------------------ -/
/- C9                                                                  -/
/- ------------------------------------------------------------------ -/

/-- Claim C9: with an empty Context Stack, `write_text` and `start_elem`
fail exactly like `end_elem` does when `create_missing_parent` is false —
with no bytes written for the call — and when it is true they behave as if
a synthetic default entry (no name, not suppressed) had been pushed first,
with the diagnostic recorded. -/
theorem c9_write_text_start_elem_empty_stack (s : HtmlSerializer) (t : String)
    (n : QualName) (a : List (QualName × String)) (hs : s.stack = []) :
    (s.opts.create_missing_parent = false →
      write_text s t = none ∧ start_elem s n a = none) ∧
    (s.opts.create_missing_parent = true →
      write_text s t = write_text
        { s with stack := [ElemInfo.default], warns := s.warns ++ [stackWarnMsg] } t ∧
      start_elem s n a = start_elem
        { s with stack := [ElemInfo.default], warns := s.warns ++ [stackWarnMsg] } n a ∧
      ElemInfo.default.html_name = none ∧
      ElemInfo.default.ignore_children = false) := by
  constructor
  · intro hc
    constructor
    · unfold write_text parent
      rw [hs]
      simp [hc]
    · unfold start_elem parent
      rw [hs]
      simp [hc]
  · intro hc
    refine ⟨?_, ?_, rfl, rfl⟩
    · unfold write_text parent
      rw [hs]
      simp [hc]
    · unfold start_elem parent
      rw [hs]
      simp [hc]

/-- Claim C9 witness: both configurations at concrete inputs. -/
theorem c9_write_text_start_elem_empty_stack_witness :
    (write_text emptyStrict "x" = none ∧
     start_elem emptyStrict ⟨Ns.html, "div"⟩ [] = none) ∧
    (write_text emptyLenient "x" = write_text
        { emptyLenient with
          stack := [ElemInfo.default]
          warns := emptyLenient.warns ++ [stackWarnMsg] } "x" ∧
     start_elem emptyLenient ⟨Ns.html, "div"⟩ [] = start_elem
        { emptyLenient with
          stack := [ElemInfo.default]
          warns := emptyLenient.warns ++ [stackWarnMsg] } ⟨Ns.html, "div"⟩ [] ∧
     ElemInfo.default.html_name = none ∧
     ElemInfo.default.ignore_children = false) :=
  ⟨(c9_write_text_start_elem_empty_stack emptyStrict "x" ⟨Ns.html, "div"⟩ []
      rfl).1 rfl,
   (c9_write_text_start_elem_empty_stack emptyLenient "x" ⟨Ns.html, "div"⟩ []
      rfl).2 rfl⟩

/- ------------------------------------------------------------------ -/
/- C10                                                                 -/
/- ------------------------------------------------------------------ -/

/-- Claim C10: `end_elem` on an empty stack with `create_missing_parent`
true synthesizes a non-suppressed default entry, so it still emits the
full closing tag for the supplied name, each punctuation piece escaped
per the sanitization decision for that tag. -/
theorem c10_end_elem_missing_parent_emits_close (s : HtmlSerializer)
    (name : QualName) (hs : s.stack = [])
    (hc : s.opts.create_missing_parent = true) :
    end_elem s name = some { s with
      warns := s.warns ++ [missingWarnMsg] ++ (tagname name).2
      out := s.out ++
        escape_text "</" (!(ALLOWED_TAGS.contains (tagname name).1)) ++
        (tagname name).1 ++
        escape_text ">" (!(ALLOWED_TAGS.contains (tagname name).1)) } ∧
    ElemInfo.default.ignore_children = false := by
  constructor
  · unfold end_elem
    rw [hs]
    simp [hc, ElemInfo.default]
  · rfl

/-- Claim C10 witness: at a concrete state with a disallowed tag (`div`),
the emitted closing tag is the literalized `&lt;/div&gt;`. -/
theorem c10_end_elem_missing_parent_emits_close_witness :
    (end_elem emptyLenient ⟨Ns.html, "div"⟩ = some { emptyLenient with
      warns := emptyLenient.warns ++ [missingWarnMsg] ++
        (tagname ⟨Ns.html, "div"⟩).2
      out := emptyLenient.out ++
        escape_text "</" (!(ALLOWED_TAGS.contains (tagname ⟨Ns.html, "div"⟩).1)) ++
        (tagname ⟨Ns.html, "div"⟩).1 ++
        escape_text ">" (!(ALLOWED_TAGS.contains (tagname ⟨Ns.html, "div"⟩).1)) } ∧
     ElemInfo.default.ignore_children = false) ∧
    (end_elem emptyLenient ⟨Ns.html, "div"⟩).map HtmlSerializer.out =
      some "&lt;/div&gt;" :=
  ⟨c10_end_elem_missing_parent_emits_close emptyLenient ⟨Ns.html, "div"⟩ rfl rfl,
   by decide⟩

/- ------------------------------------------------------------------ -/
/- C8                                                                  -/
/- ------------------------------------------------------------------ -/

/-- The inverse unescaping named by claim C8: decode `&amp;` to `&`,
`&nbsp;` to U+00A0, `&lt;` to `<` and `&gt;` to `>`, leaving every other
character unchanged, greedily from the left. -/
def unescapeL : List Char → List Char
  | [] => []
  | c :: rest =>
    if c = '&' then
      if rest.take 4 = "amp;".data then '&' :: unescapeL (rest.drop 4)
      else if rest.take 5 = "nbsp;".data then '\u00A0' :: unescapeL (rest.drop 5)
      else if rest.take 3 = "lt;".data then '<' :: unescapeL (rest.drop 3)
      else if rest.take 3 = "gt;".data then '>' :: unescapeL (rest.drop 3)
      else c :: unescapeL rest
    else c :: unescapeL rest
termination_by l => l.length
decreasing_by
  all_goals simp [List.length_drop]
  all_goals omega

/-- String version of the claim C8 decoder. -/
def unescape (s : String) : String := ⟨unescapeL s.data⟩

lemma unescapeL_nil : unescapeL [] = [] := by
  rw [unescapeL]

lemma unescapeL_amp (l : List Char) :
    unescapeL ('&' :: 'a' :: 'm' :: 'p' :: ';' :: l) = '&' :: unescapeL l := by
  rw [unescapeL]
  norm_num

lemma unescapeL_nbsp (l : List Char) :
    unescapeL ('&' :: 'n' :: 'b' :: 's' :: 'p' :: ';' :: l) =
      '\u00A0' :: unescapeL l := by
  rw [unescapeL]
  norm_num
  intro h
  exact absurd h (by decide)

lemma unescapeL_lt (l : List Char) :
    unescapeL ('&' :: 'l' :: 't' :: ';' :: l) = '<' :: unescapeL l := by
  rw [unescapeL]
  norm_num
  rw [if_neg (fun h => absurd h.1 (by decide)),
    if_neg (fun h => absurd h.1 (by decide))]

lemma unescapeL_gt (l : List Char) :
    unescapeL ('&' :: 'g' :: 't' :: ';' :: l) = '>' :: unescapeL l := by
  rw [unescapeL]
  norm_num
  rw [if_neg (fun h => absurd h.1 (by decide)),
    if_neg (fun h => absurd h.1 (by decide)), if_neg (by decide)]

lemma unescapeL_other (c : Char) (l : List Char) (h : c ≠ '&') :
    unescapeL (c :: l) = c :: unescapeL l := by
  rw [unescapeL]
  simp [h]

lemma unescape_escapeList (l : List Char) :
    unescapeL (escapeList false l) = l := by
  induction l with
  | nil => exact unescapeL_nil
  | cons c tl ih =>
    show unescapeL (escapeCharL false c ++ escapeList false tl) = c :: tl
    by_cases h1 : c = '&'
    · subst h1
      rw [show escapeCharL false '&' = "&amp;".data from rfl]
      simpa [unescapeL_amp] using ih
    · by_cases h2 : c = '\u00A0'
      · subst h2
        rw [show escapeCharL false '\u00A0' = "&nbsp;".data from rfl]
        simpa [unescapeL_nbsp] using ih
      · by_cases h3 : c = '<'
        · subst h3
          rw [show escapeCharL false '<' = "&lt;".data from rfl]
          simpa [unescapeL_lt] using ih
        · by_cases h4 : c = '>'
          · subst h4
            rw [show escapeCharL false '>' = "&gt;".data from rfl]
            simpa [unescapeL_gt] using ih
          · have hc : escapeCharL false c = [c] := by
              simp [escapeCharL, h1, h2, h3, h4]
            rw [hc]
            rw [List.singleton_append, unescapeL_other c _ h1, ih]

/-- Claim C8: text-mode escaping followed by the inverse unescaping
recovers every input string exactly, and decoding `&nbsp;` recovers
exactly U+00A0. -/
theorem c8_escape_unescape_roundtrip :
    (∀ text : String, unescape (write_escaped text false) = text) ∧
    unescape "&nbsp;" = "\u00A0" := by
  constructor
  · intro text
    show (⟨unescapeL (escapeList false text.data)⟩ : String) = text
    rw [unescape_escapeList]
  · show (⟨unescapeL "&nbsp;".data⟩ : String) = "\u00A0"
    rw [show ("&nbsp;".data : List Char) =
      '&' :: 'n' :: 'b' :: 's' :: 'p' :: ';' :: [] from rfl]
    rw [unescapeL_nbsp, unescapeL_nil]

end HtmlSerialize
